import Mathlib

/-!
Verification development for the CodeLab Assistant repository
(`codelab_assistant`: flowchart structure classifier, diagram renderers,
execution orchestrator, profile store, report assembler).

Python code is shallowly embedded: strings are `String`/`List Char`,
CPython regular-expression searches used by the source are translated to
specialised recursive matchers with the same backtracking behaviour,
`subprocess`/`os` effects are abstracted into explicit environment records,
and Python dictionary reference semantics (for the profile store) are made
explicit with a small heap.  Case folding (`str.lower`) is modelled for the
ASCII and Russian Cyrillic ranges, the only alphabets occurring in the
program's keyword tables and literals.
-/

namespace CodelabAssistant

/-! ### Python string primitives -/

/-- Python whitespace (`str.strip`, `\s`), restricted to the ASCII range. -/
def isPySpace (c : Char) : Bool :=
  c = ' ' ∨ c = '\t' ∨ c = '\n' ∨ c = '\r' ∨ c = '\x0b' ∨ c = '\x0c'

/-- `str.lower` on one character, modelled for ASCII `A`-`Z` and
Cyrillic `А`-`Я`, `Ё`. -/
def pyLowerChar (c : Char) : Char :=
  if 'A' ≤ c ∧ c ≤ 'Z' then Char.ofNat (c.toNat + 32)
  else if 'А' ≤ c ∧ c ≤ 'Я' then Char.ofNat (c.toNat + 32)
  else if c = 'Ё' then 'ё'
  else c

/-- `str.lower`. -/
def pyLower (cs : List Char) : List Char := cs.map pyLowerChar

/-- `str.strip()`. -/
def pyStrip (cs : List Char) : List Char :=
  ((cs.dropWhile isPySpace).reverse.dropWhile isPySpace).reverse

/-- `str.rstrip(";")`: drop all trailing semicolons. -/
def rstripSemis (cs : List Char) : List Char :=
  (cs.reverse.dropWhile (· = ';')).reverse

/-- Python's substring operator `pat in s`. -/
def isSubOf (pat : List Char) : List Char → Bool
  | [] => pat.isEmpty
  | a :: rest => pat.isPrefixOf (a :: rest) || isSubOf pat rest

/-- `str.split("\n")`: split at every newline, keeping empty pieces
(`"".split("\n") == [""]`). -/
def splitLines : List Char → List (List Char)
  | [] => [[]]
  | c :: rest =>
    match splitLines rest with
    | [] => [[]]
    | l :: ls => if c = '\n' then [] :: l :: ls else (c :: l) :: ls

/-! ### Specialised regular-expression matchers

The flowchart module uses a handful of fixed `re` patterns of the shape
`KW \s+ (.+?) TERM` (plus variants).  Each is translated into a recursive
matcher reproducing CPython's leftmost-match search and backtracking order:
the greedy `\s+`/`\s*` run is tried longest-first, the lazy group `(.+?)`
shortest-first, `.` does not match a newline. -/

/-- Length of the maximal leading whitespace run (greedy `\s+`/`\s*`). -/
def wsRun (cs : List Char) : Nat := (cs.takeWhile isPySpace).length

/-- Literal keyword match at the current position; `ci` is `re.IGNORECASE`
(the patterns' keywords are lowercase). -/
def matchKw (ci : Bool) (pat cs : List Char) : Bool :=
  if ci then pat.isPrefixOf (pyLower (cs.take pat.length)) else pat.isPrefixOf cs

/-- Lazy group up to a one-character terminator: minimal non-empty capture
`(.+?)` whose characters are matched by `.` (no newline), followed by `c`. -/
def capTo (c : Char) : List Char → Option (List Char)
  | [] => none
  | a :: rest =>
    if a = '\n' then none
    else if rest.head? = some c then some [a]
    else (capTo c rest).map (a :: ·)

/-- Does `\s+WORD` (IGNORECASE) match a prefix of `r`?  The greedy `\s+` can
only succeed with the full whitespace run, since `WORD` starts with a
non-whitespace character. -/
def termWsWordAt (w r : List Char) : Bool :=
  1 ≤ wsRun r ∧ matchKw true w (r.drop (wsRun r))

/-- Lazy group up to a `\s+WORD` terminator (Pascal `then` / `do`). -/
def capToWsWord (w : List Char) : List Char → Option (List Char)
  | [] => none
  | a :: rest =>
    if a = '\n' then none
    else if termWsWordAt w rest then some [a]
    else (capToWsWord w rest).map (a :: ·)

/-- Greedy `\s+` followed by the group-and-terminator matcher `term`,
trying whitespace runs of length `W`, `W-1`, …, `1`. -/
def wsPlusThenCap (term : List Char → Option (List Char)) (rem : List Char) :
    Nat → Option (List Char)
  | 0 => none
  | w + 1 => term (rem.drop (w + 1)) <|> wsPlusThenCap term rem w

/-- `(` at offset `W`, then a lazy group up to `)`. -/
def parenAt (rem : List Char) (W : Nat) : Option (List Char) :=
  match rem.drop W with
  | '(' :: r => capTo ')' r
  | _ => none

/-- Greedy `\s*` followed by `\((.+?)\)`, trying offsets `W`, `W-1`, …, `0`. -/
def wsStarParenCap (rem : List Char) : Nat → Option (List Char)
  | 0 => parenAt rem 0
  | w + 1 => parenAt rem (w + 1) <|> wsStarParenCap rem w

/-- One attempt of pattern `KW\s+(.+?)TERMCHAR` at the current position,
with the keyword alternatives tried in the pattern's order. -/
def attemptKwWsCapChar (ci : Bool) (kws : List (List Char)) (t : Char)
    (cs : List Char) : Option (List Char) :=
  kws.findSome? fun kw =>
    if matchKw ci kw cs then
      let rem := cs.drop kw.length
      wsPlusThenCap (capTo t) rem (wsRun rem)
    else none

/-- One attempt of pattern `KW\s+(.+?)\s+WORD` (IGNORECASE). -/
def attemptKwWsCapWsWord (kws : List (List Char)) (w : List Char)
    (cs : List Char) : Option (List Char) :=
  kws.findSome? fun kw =>
    if matchKw true kw cs then
      let rem := cs.drop kw.length
      wsPlusThenCap (capToWsWord w) rem (wsRun rem)
    else none

/-- One attempt of pattern `KW\s*\((.+?)\)`. -/
def attemptKwParen (kws : List (List Char)) (cs : List Char) :
    Option (List Char) :=
  kws.findSome? fun kw =>
    if matchKw false kw cs then
      let rem := cs.drop kw.length
      wsStarParenCap rem (wsRun rem)
    else none

/-- `re.search`: try the attempt at each start position, leftmost first. -/
def reSearchAux (attempt : List Char → Option (List Char)) :
    List Char → Option (List Char)
  | [] => attempt []
  | c :: rest => attempt (c :: rest) <|> reSearchAux attempt rest

/-! ### flowchart.py — structure classifier -/

/-- One flowchart node (`{"type": ..., "label": ...}`). -/
structure FNode where
  type : String
  label : String
deriving DecidableEq, Repr

/-- `flowchart._is_io_statement`. -/
def _is_io_statement (line : List Char) (language : String) : Bool :=
  let ll := pyLower line
  if language = "pascal" then
    ["readln".data, "read(".data, "writeln".data, "write(".data].any (isSubOf · ll)
  else if language = "python" then
    ["input(".data, "print(".data].any (isSubOf · ll)
  else if language = "cpp" then
    ["cin".data, "cout".data, "scanf".data, "printf".data].any (isSubOf · ll)
  else false

/-- `flowchart._extract_io_label`. -/
def _extract_io_label (line : List Char) (language : String) : String :=
  let ll := pyLower line
  if language = "pascal" then
    if isSubOf "readln".data ll ∨ isSubOf "read(".data ll then
      "Ввод данных" else "Вывод данных"
  else if language = "python" then
    if isSubOf "input(".data ll then "Ввод данных" else "Вывод данных"
  else if language = "cpp" then
    if isSubOf "cin".data ll ∨ isSubOf "scanf".data ll then
      "Ввод данных" else "Вывод данных"
  else String.mk line

/-- `flowchart._is_condition`. -/
def _is_condition (line : List Char) (language : String) : Bool :=
  let ll := pyStrip (pyLower line)
  if language = "pascal" then "if ".data.isPrefixOf ll
  else if language = "python" then
    "if ".data.isPrefixOf ll ∨ "elif ".data.isPrefixOf ll
  else if language = "cpp" then
    "if ".data.isPrefixOf ll ∨ "if(".data.isPrefixOf ll
  else false

/-- `flowchart._extract_condition_label`. -/
def _extract_condition_label (line : List Char) (language : String) : String :=
  if language = "pascal" then
    match reSearchAux (attemptKwWsCapWsWord ["if".data] "then".data) line with
    | some g => String.mk g
    | none => String.mk (pyStrip line)
  else if language = "python" then
    match reSearchAux (attemptKwWsCapChar false ["elif".data, "if".data] ':') line with
    | some g => String.mk g
    | none => String.mk (pyStrip line)
  else if language = "cpp" then
    match reSearchAux (attemptKwParen ["if".data]) line with
    | some g => String.mk g
    | none => String.mk (pyStrip line)
  else String.mk (pyStrip line)

/-- `flowchart._is_loop`. -/
def _is_loop (line : List Char) (language : String) : Bool :=
  let ll := pyStrip (pyLower line)
  if language = "pascal" then
    ["for ".data, "while ".data, "repeat".data].any (·.isPrefixOf ll)
  else if language = "python" then
    ["for ".data, "while ".data].any (·.isPrefixOf ll)
  else if language = "cpp" then
    ["for ".data, "for(".data, "while ".data, "while(".data, "do ".data].any
      (·.isPrefixOf ll)
  else false

/-- `flowchart._extract_loop_label`. -/
def _extract_loop_label (line : List Char) (language : String) : String :=
  if language = "pascal" then
    if "for".data.isPrefixOf (pyLower line) then
      match reSearchAux (attemptKwWsCapWsWord ["for".data] "do".data) line with
      | some g => "Цикл: " ++ String.mk g
      | none => "Цикл: " ++ String.mk (pyStrip line)
    else if "while".data.isPrefixOf (pyLower line) then
      match reSearchAux (attemptKwWsCapWsWord ["while".data] "do".data) line with
      | some g => "Цикл: " ++ String.mk g
      | none => "Цикл: " ++ String.mk (pyStrip line)
    else "Цикл: " ++ String.mk (pyStrip line)
  else if language = "python" then
    match reSearchAux (attemptKwWsCapChar false ["for".data, "while".data] ':') line with
    | some g => "Цикл: " ++ String.mk g
    | none => "Цикл: " ++ String.mk (pyStrip line)
  else if language = "cpp" then
    match reSearchAux (attemptKwParen ["for".data, "while".data]) line with
    | some g => "Цикл: " ++ String.mk g
    | none => "Цикл: " ++ String.mk (pyStrip line)
  else "Цикл: " ++ String.mk (pyStrip line)

/-- `flowchart._is_assignment`. -/
def _is_assignment (line : List Char) (language : String) : Bool :=
  if language = "pascal" then isSubOf ":=".data line
  else if language = "python" ∨ language = "cpp" then
    isSubOf "=".data line ∧
      ¬ (["if ".data, "while ".data, "for ".data].any (·.isPrefixOf (pyStrip line)))
  else false

/-- `re.match(r"int\s+main\s*\(", stripped)`. -/
def isCppMainLine (cs : List Char) : Bool :=
  "int".data.isPrefixOf cs ∧
    (let r := cs.drop 3
     1 ≤ wsRun r ∧
       ("main".data.isPrefixOf (r.drop (wsRun r)) ∧
         (let r2 := (r.drop (wsRun r)).drop 4
          (r2.drop (wsRun r2)).head? = some '(')))

/-- Pascal declarative keywords skipped verbatim
(`stripped.lower() in ("program", "begin", "end.", "end;", "var", "uses")`). -/
def pascalDeclWords : List (List Char) :=
  ["program".data, "begin".data, "end.".data, "end;".data, "var".data, "uses".data]

/-- The sequential comment / declarative-line skip rules of
`flowchart._parse_structure`'s loop, in the source's order; each matching
rule executes `continue`, so a line is skipped exactly when some rule
matches. -/
def isSkipLine (language : String) (stripped : List Char) : Prop :=
  (language = "python" ∧ "#".data.isPrefixOf stripped)
    ∨ ((language = "cpp" ∨ language = "pascal") ∧ "//".data.isPrefixOf stripped)
    ∨ (language = "pascal" ∧ pascalDeclWords.contains (pyLower stripped))
    ∨ (language = "pascal" ∧ "program ".data.isPrefixOf (pyLower stripped))
    ∨ (language = "pascal" ∧ "var".data.isPrefixOf (pyLower stripped))
    ∨ (language = "pascal" ∧ "uses ".data.isPrefixOf (pyLower stripped))
    ∨ (language = "cpp" ∧ "#include".data.isPrefixOf stripped)
    ∨ (language = "cpp" ∧
        (stripped = "\x7b".data ∨ stripped = "\x7d".data ∨ stripped = "\x7d;".data))
    ∨ (language = "cpp" ∧ "using namespace".data.isPrefixOf stripped)
    ∨ (language = "python" ∧ "import ".data.isPrefixOf stripped)
    ∨ (language = "python" ∧ "from ".data.isPrefixOf stripped)
    ∨ (language = "python" ∧ "def ".data.isPrefixOf stripped)
    ∨ (language = "cpp" ∧ isCppMainLine stripped)

instance (language : String) (stripped : List Char) :
    Decidable (isSkipLine language stripped) := by
  unfold isSkipLine; infer_instance

/-- The body of the per-line loop of `flowchart._parse_structure`, applied to
the already-stripped line: skip rules first, then io / condition / loop /
assignment classification, in the source's order. -/
def classifyStripped (language : String) (stripped : List Char) : Option FNode :=
  if stripped.isEmpty then none
  else if isSkipLine language stripped then none
  else if _is_io_statement stripped language then
    some ⟨"io", _extract_io_label stripped language⟩
  else if _is_condition stripped language then
    some ⟨"decision", _extract_condition_label stripped language⟩
  else if _is_loop stripped language then
    some ⟨"decision", _extract_loop_label stripped language⟩
  else if _is_assignment stripped language then
    some ⟨"process", String.mk (rstripSemis stripped)⟩
  else none

/-- One iteration of the `_parse_structure` loop on a raw physical line. -/
def classifyLine (language : String) (line : List Char) : Option FNode :=
  classifyStripped language (pyStrip line)

/-- The leading node `{"type": "start", "label": "Начало"}`. -/
def startNode : FNode := ⟨"start", "Начало"⟩

/-- The trailing node `{"type": "end", "label": "Конец"}`. -/
def endNode : FNode := ⟨"end", "Конец"⟩

/-- `flowchart._parse_structure`: start node, one optional node per physical
line of the stripped source in order, end node. -/
def _parse_structure (code : String) (language : String) : List FNode :=
  startNode ::
    ((splitLines (pyStrip code.data)).filterMap (classifyLine language) ++ [endNode])

/-! ### analyzer.py — comment and purpose extraction -/

/-- Lazy group up to a literal terminator sequence with `re.DOTALL` semantics
(`(.*?)TERM`): minimal possibly-empty capture, returning the capture and the
text after the terminator. -/
def lazyCapToSeq (term : List Char) : List Char → Option (List Char × List Char)
  | [] => if term.isEmpty then some ([], []) else none
  | a :: rest =>
    if term.isPrefixOf (a :: rest) then some ([], (a :: rest).drop term.length)
    else (lazyCapToSeq term rest).map (fun p => (a :: p.1, p.2))

/-- `re.finditer` over a delimited-comment pattern `OP(.*?)CL` (`re.DOTALL`),
collecting the group of every non-overlapping match left to right.  Fuel is
the input length; each step either consumes the opener (at least one
character) or advances one position, so the fuel never runs out. -/
def delimCommentsFuel (op cl : List Char) : Nat → List Char → List (List Char)
  | 0, _ => []
  | _, [] => []
  | fuel + 1, a :: rest =>
    if op.isPrefixOf (a :: rest) then
      match lazyCapToSeq cl ((a :: rest).drop op.length) with
      | some (g, after) => g :: delimCommentsFuel op cl fuel after
      | none => delimCommentsFuel op cl fuel rest
    else delimCommentsFuel op cl fuel rest

/-- All groups of `re.finditer(r"OP(.*?)CL", code, re.DOTALL)` (also covers
the Pascal `\{([^}]*)\}` pattern, whose group equally ends at the first
closer). -/
def delimComments (op cl : List Char) (cs : List Char) : List (List Char) :=
  delimCommentsFuel op cl cs.length cs

/-- The text after the first occurrence of `marker`, if any. -/
def afterFirst (marker : List Char) : List Char → Option (List Char)
  | [] => none
  | a :: rest =>
    if marker.isPrefixOf (a :: rest) then some ((a :: rest).drop marker.length)
    else afterFirst marker rest

/-- All groups of `re.finditer(r"MARKER(.*)$", code, re.MULTILINE)`: per
physical line, everything after the first marker occurrence. -/
def lineComments (marker : List Char) (code : List Char) : List (List Char) :=
  (splitLines code).filterMap (afterFirst marker)

/-- `analyzer.extract_comments`: per-language comment syntaxes in the
source's group order, matches stripped, empties discarded. -/
def extract_comments (code : String) (language : String) : List String :=
  let cs := code.data
  let comments : List (List Char) :=
    if language = "pascal" then
      delimComments "\x7b".data "\x7d".data cs
        ++ delimComments "(*".data "*)".data cs
        ++ lineComments "//".data cs
    else if language = "python" then
      lineComments "#".data cs
        ++ delimComments "\"\"\"".data "\"\"\"".data cs
        ++ delimComments "\x27\x27\x27".data "\x27\x27\x27".data cs
    else if language = "cpp" then
      lineComments "//".data cs
        ++ delimComments "/*".data "*/".data cs
    else []
  ((comments.map pyStrip).filter (fun c => ¬ c.isEmpty)).map String.mk

/-- `analyzer`'s fixed purpose keyword list. -/
def purpose_keywords : List String :=
  ["цель", "задание", "задача", "лабораторная", "purpose", "task", "lab", "objective"]

/-- Does a comment contain a purpose keyword, case-insensitively? -/
def hasPurposeKeyword (comment : String) : Bool :=
  purpose_keywords.any (fun kw => isSubOf kw.data (pyLower comment.data))

/-- `os.path.splitext` applied to a path-separator-free base name: the part
before the last dot, unless every character before that dot is a dot. -/
def splitextBaseChars (b : List Char) : List Char :=
  match b.reverse.findIdx? (· = '.') with
  | none => b
  | some j =>
    let i := b.length - 1 - j
    if (b.take i).all (· = '.') then b else b.take i

/-- `os.path.basename` (POSIX): the part after the last `/`. -/
def pathBasename (p : List Char) : List Char :=
  (p.reverse.takeWhile (· ≠ '/')).reverse

/-- `os.path.splitext(os.path.basename(filepath))[0]`. -/
def basenameNoExt (filepath : String) : String :=
  String.mk (splitextBaseChars (pathBasename filepath.data))

/-- `os.path.splitext(p)[0]` on a full path. -/
def splitextRoot (p : List Char) : List Char :=
  let base := pathBasename p
  p.take (p.length - base.length) ++ splitextBaseChars base

/-- `os.path.splitext(p)[1]` on a full path. -/
def splitextExt (p : List Char) : List Char :=
  p.drop (splitextRoot p).length

/-- `analyzer.extract_purpose`: first comment with a purpose keyword, else
first comment, else a string synthesised from the file's base name. -/
def extract_purpose (code language filepath : String) : String :=
  let comments := extract_comments code language
  match comments.find? hasPurposeKeyword with
  | some c => c
  | none =>
    match comments with
    | c :: _ => c
    | [] => "Выполнение программы \x27" ++ basenameNoExt filepath ++ "\x27"

/-! ### flowchart.py — raster renderer, and the Mermaid text renderer

`generate_flowchart` builds a `graphviz.Digraph` with node ids `n0..nk`,
per-type shapes and fill colours, and one edge per consecutive node pair,
then delegates to the external layout tool; availability of the `graphviz`
package and the outcome of `render` are abstracted into an environment. -/

/-- A styled graphviz node as added by `dot.node`. -/
structure DotNode where
  id : String
  label : String
  shape : String
  fillcolor : String
deriving DecidableEq, Repr

/-- Sequential node identifier `f"n{i}"`. -/
def node_id (i : Nat) : String := "n" ++ toString i

/-- The shape chosen by `generate_flowchart`'s per-type branches (agreeing
with the `NODE_SHAPES` table). -/
def dot_shape (t : String) : String :=
  if t = "io" then "parallelogram"
  else if t = "decision" then "diamond"
  else if t = "start" ∨ t = "end" then "ellipse"
  else "box"

/-- The fill colour chosen by `generate_flowchart`'s per-type branches. -/
def dot_fill (t : String) : String :=
  if t = "io" then "#E8F5E9"
  else if t = "decision" then "#FFF9C4"
  else if t = "start" ∨ t = "end" then "#BBDEFB"
  else "#F5F5F5"

/-- The `dot.node` calls of `generate_flowchart`, in `enumerate` order,
starting from index `i`. -/
def dotNodesFrom (i : Nat) : List FNode → List DotNode
  | [] => []
  | n :: rest => ⟨node_id i, n.label, dot_shape n.type, dot_fill n.type⟩ :: dotNodesFrom (i + 1) rest

/-- All graphviz nodes of the diagram. -/
def dot_nodes (nodes : List FNode) : List DotNode := dotNodesFrom 0 nodes

/-- The `dot.edge` calls: `n_i -> n_{i+1}` for `i in range(len(nodes)-1)`. -/
def dot_edges (nodes : List FNode) : List (String × String) :=
  (List.range (nodes.length - 1)).map (fun i => (node_id i, node_id (i + 1)))

/-- Outcome of `dot.render` through the external layout tool. -/
inductive RenderOutcome where
  | success : String → RenderOutcome
  | execNotFound : RenderOutcome
  | failure : RenderOutcome
deriving DecidableEq, Repr

/-- The ambient graphviz capability: whether the `graphviz` package imported,
and what `dot.render` does for a given built graph. -/
structure GraphvizEnv where
  available : Bool
  render : List DotNode → List (String × String) → RenderOutcome

/-- `flowchart.generate_flowchart`: `None` when the package is missing, when
at most the start/end nodes exist, or when rendering fails for any reason. -/
def generate_flowchart (env : GraphvizEnv) (code language : String) : Option String :=
  if env.available = false then none
  else
    let nodes := _parse_structure code language
    if nodes.length ≤ 2 then none
    else
      match env.render (dot_nodes nodes) (dot_edges nodes) with
      | .success p => some p
      | .execNotFound => none
      | .failure => none

/-! ### Mermaid text renderer (spec-modelled) -/

/-- A Mermaid node declaration, as id, label and shape tag. -/
structure MermaidNode where
  id : String
  label : String
  shape : String
deriving DecidableEq, Repr

/-- Translation of the raster mode's graphviz shape vocabulary into the
Mermaid bracket vocabulary: `ellipse` (terminals) becomes the rounded
`stadium`, `box` becomes `rect`, `diamond` and `parallelogram` carry over. -/
def shape_translation (s : String) : String :=
  if s = "ellipse" then "stadium"
  else if s = "box" then "rect"
  else s

/-- Modelled from the spec: the shape the text-description mode assigns per
node type (`flowchart.generate_mermaid_code` is not present under `src/`;
only its import in `cli.py` and its tests are).  Same shape-per-type
vocabulary as raster mode, in Mermaid terms. -/
def mermaid_shape (t : String) : String :=
  if t = "io" then "parallelogram"
  else if t = "decision" then "diamond"
  else if t = "start" ∨ t = "end" then "stadium"
  else "rect"

/-- Modelled from the spec: the per-node declarations of the text mode, one
per DiagramNode with the sequential ids `n0..nk`. -/
def mermaidNodesFrom (i : Nat) : List FNode → List MermaidNode
  | [] => []
  | n :: rest => ⟨node_id i, n.label, mermaid_shape n.type⟩ :: mermaidNodesFrom (i + 1) rest

/-- All Mermaid node declarations of the diagram. -/
def mermaid_nodes (nodes : List FNode) : List MermaidNode := mermaidNodesFrom 0 nodes

/-- Modelled from the spec: the per-edge arrow lines `n_i --> n_{i+1}`, one
per consecutive pair. -/
def mermaid_edges (nodes : List FNode) : List (String × String) :=
  (List.range (nodes.length - 1)).map (fun i => (node_id i, node_id (i + 1)))

/-- The bracket/paren/diamond syntax of one node declaration. -/
def mermaidDeclText (m : MermaidNode) : String :=
  if m.shape = "stadium" then m.id ++ "([\"" ++ m.label ++ "\"])"
  else if m.shape = "diamond" then m.id ++ "\x7b\"" ++ m.label ++ "\"\x7d"
  else if m.shape = "parallelogram" then m.id ++ "[/\"" ++ m.label ++ "\"/]"
  else m.id ++ "[\"" ++ m.label ++ "\"]"

/-- One arrow line of the text mode. -/
def mermaidEdgeText (e : String × String) : String :=
  "    " ++ e.1 ++ " --> " ++ e.2

/-- Modelled from the spec: `flowchart.generate_mermaid_code` — header line,
node declarations, arrow lines; no artifact under the same `≤ 2`-node
condition as raster mode, otherwise pure string construction. -/
def generate_mermaid_code (code language : String) : Option String :=
  let nodes := _parse_structure code language
  if nodes.length ≤ 2 then none
  else
    some ("flowchart TD\n"
      ++ String.join ((mermaid_nodes nodes).map (fun m => "    " ++ mermaidDeclText m ++ "\n"))
      ++ String.join ((mermaid_edges nodes).map (fun e => mermaidEdgeText e ++ "\n")))

/-! ### executor.py — compile/run orchestration

`shutil.which`, `subprocess.run`, `os.path.exists`, reading the source file
and the temporary directory name are abstracted into an environment record;
`subprocess.run` outcomes are a completed process or one of the exception
classes the module handles.  A `none` result of a modelled function marks an
exception the source does not catch (propagated to the caller). -/

/-- Outcome of one `subprocess.run` invocation. -/
inductive SubprocOutcome where
  | completed : String → String → Int → SubprocOutcome
  | timeoutExpired : SubprocOutcome
  | fileNotFound : SubprocOutcome
  | permissionError : SubprocOutcome
deriving DecidableEq, Repr

/-- The ambient platform: binary lookup, process execution (command line and
optional stdin text), file-existence probe, source-file read, and the name
of the per-request temporary directory. -/
structure ExecEnv where
  which : String → Option String
  exec : List String → Option String → SubprocOutcome
  pathExists : String → Bool
  readFile : String → Option String
  tmpdir : String

/-- `executor.DEFAULT_TIMEOUT`. -/
def DEFAULT_TIMEOUT : Nat := 30

/-- The candidate binary names of `executor._find_compiler`. -/
def compiler_candidates (language : String) : List String :=
  if language = "pascal" then ["pabcnetc", "fpc"]
  else if language = "python" then ["python3", "python"]
  else if language = "cpp" then ["g++", "gcc"]
  else []

/-- `executor._find_compiler`: first candidate that `shutil.which` resolves. -/
def _find_compiler (env : ExecEnv) (language : String) : Option String :=
  (compiler_candidates language).findSome? env.which

/-- Python's `a or b` on strings. -/
def pyOr (a b : String) : String := if a ≠ "" then a else b

/-- `executor._compile_pascal`; `none` marks a propagated exception. -/
def _compile_pascal (env : ExecEnv) (source_path compiler : String) :
    Option (Option String × Option String) :=
  let output_path := String.mk (splitextRoot source_path.data)
  match env.exec [compiler, source_path] none with
  | .completed out err rc =>
    if rc ≠ 0 then some (none, some (pyOr err out))
    else if env.pathExists output_path then some (some output_path, none)
    else some (none, some "Исполняемый файл не найден после компиляции")
  | .timeoutExpired => some (none, some "Превышено время компиляции")
  | .fileNotFound => some (none, some ("Компилятор не найден: " ++ compiler))
  | .permissionError => none

/-- `executor._compile_cpp`; `none` marks a propagated exception. -/
def _compile_cpp (env : ExecEnv) (source_path compiler : String) :
    Option (Option String × Option String) :=
  let output_path := String.mk (splitextRoot source_path.data)
  match env.exec [compiler, source_path, "-o", output_path] none with
  | .completed out err rc =>
    if rc ≠ 0 then some (none, some (pyOr err out))
    else some (some output_path, none)
  | .timeoutExpired => some (none, some "Превышено время компиляции")
  | .fileNotFound => some (none, some ("Компилятор не найден: " ++ compiler))
  | .permissionError => none

/-- `executor.compile_code`: Python skips compilation and returns the source
path unchanged; otherwise dispatch on the located compiler. -/
def compile_code (env : ExecEnv) (source_path language : String) :
    Option (Option String × Option String) :=
  if language = "python" then some (some source_path, none)
  else
    match _find_compiler env language with
    | none => some (none, some ("Компилятор для " ++ language ++ " не найден"))
    | some compiler =>
      if language = "pascal" then _compile_pascal env source_path compiler
      else if language = "cpp" then _compile_cpp env source_path compiler
      else some (none, some ("Неподдерживаемый язык: " ++ language))

/-- The run result dictionary of `executor.run_program`. -/
structure RunOut where
  stdout : String
  stderr : String
  returncode : Int
  error : Option String
deriving DecidableEq, Repr

/-- The command line `run_program` builds: interpreter plus script for
Python (falling back to the literal `"python3"`), the bare executable
otherwise. -/
def progCmd (env : ExecEnv) (executable_path language : String) : List String :=
  if language = "python" then
    [(_find_compiler env "python").getD "python3", executable_path]
  else [executable_path]

/-- `executor.run_program`: total — every platform exception the run can
raise is converted into a `-1` result with an error message. -/
def run_program (env : ExecEnv) (executable_path language input_data : String)
    (timeout : Option Nat) : RunOut :=
  let t := timeout.getD DEFAULT_TIMEOUT
  match env.exec (progCmd env executable_path language) (some input_data) with
  | .completed out err rc => ⟨out, err, rc, none⟩
  | .timeoutExpired =>
    ⟨"", "", -1, some ("Превышено время выполнения (" ++ toString t ++ " сек.)")⟩
  | .fileNotFound => ⟨"", "", -1, some ("Не удалось запустить: " ++ executable_path)⟩
  | .permissionError => ⟨"", "", -1, some ("Нет прав на выполнение: " ++ executable_path)⟩

/-- One entry of `run_tests`' result list. -/
structure TestRunResult where
  stdout : String
  stderr : String
  returncode : Int
  error : Option String
  test_number : Nat
  input : String
deriving DecidableEq, Repr

/-- The report dictionary of `executor.run_tests`. -/
structure CompileRunReport where
  compiled : Bool
  compile_error : Option String
  results : List TestRunResult
deriving DecidableEq, Repr

/-- Tagging a run result with its 1-based position and its input. -/
def mkTestEntry (r : RunOut) (n : Nat) (inp : String) : TestRunResult :=
  ⟨r.stdout, r.stderr, r.returncode, r.error, n, inp⟩

/-- Python truthiness of `compile_error` (`if compile_error:`): a present,
non-empty string. -/
def isTruthyStr : Option String → Bool
  | none => false
  | some s => s ≠ ""

/-- The `for i, test_input in enumerate(test_cases)` loop of `run_tests`:
one independent `run_program` invocation per input, in order. -/
def runTestsLoop (env : ExecEnv) (exe language : String) :
    Nat → List String → List TestRunResult
  | _, [] => []
  | i, t :: rest =>
    mkTestEntry (run_program env exe language t none) (i + 1) t
      :: runTestsLoop env exe language (i + 1) rest

/-- `executor.run_tests`: copy the source into the temporary directory,
compile, and on success run every test case; `none` marks a propagated
exception (unreadable source, an uncaught compile exception, or running
with a `None` executable). -/
def run_tests (env : ExecEnv) (source_path language : String)
    (test_cases : List String) : Option CompileRunReport :=
  match env.readFile source_path with
  | none => none
  | some _ =>
    let ext := String.mk (splitextExt source_path.data)
    let tmp_source := env.tmpdir ++ "/program" ++ ext
    match compile_code env tmp_source language with
    | none => none
    | some (executable, compile_error) =>
      if isTruthyStr compile_error then some ⟨false, compile_error, []⟩
      else
        match test_cases, executable with
        | [], _ => some ⟨true, none, []⟩
        | _ :: _, none => none
        | ts, some exe => some ⟨true, none, runTestsLoop env exe language 0 ts⟩

/-! ### profiles.py — the default profile and `load_profile("default")`

`DEFAULT_PROFILE` is a module-level dictionary whose `margins` and
`title_page` entries are themselves dictionaries.  Python reference
semantics are made explicit: the nested dictionaries live on a heap of
addresses, the top-level dictionary is a record holding their addresses,
and `dict.copy()` (a shallow copy) produces a fresh top-level record with
the same addresses.  Mutations of a nested dictionary are heap updates. -/

/-- The `margins` nested dictionary. -/
structure Margins where
  top_cm : ℚ
  bottom_cm : ℚ
  left_cm : ℚ
  right_cm : ℚ
deriving DecidableEq, Repr

/-- The `title_page` nested dictionary. -/
structure TitlePageCfg where
  university : String
  faculty : String
  department : String
  discipline : String
  work_type : String
deriving DecidableEq, Repr

/-- The top-level profile dictionary; `marginsRef` and `titlePageRef` are
heap addresses of the nested dictionaries. -/
structure ProfileTop where
  name : String
  display_name : String
  font_name : String
  font_size : Nat
  code_font_name : String
  code_font_size : Nat
  marginsRef : Nat
  sections : List String
  titlePageRef : Nat
  line_spacing : ℚ
  page_numbers : Bool
deriving DecidableEq, Repr

/-- The heap of nested profile dictionaries. -/
structure ProfHeap where
  margins : Nat → Margins
  titles : Nat → TitlePageCfg

/-- The values of `DEFAULT_PROFILE["margins"]`. -/
def defaultMargins : Margins := ⟨2, 2, 3, 3 / 2⟩

/-- The values of `DEFAULT_PROFILE["title_page"]`. -/
def defaultTitlePage : TitlePageCfg :=
  ⟨"Университет", "Факультет", "Кафедра", "Программирование", "Лабораторная работа"⟩

/-- The heap address of the (unique, shared) `DEFAULT_PROFILE` nested
dictionaries. -/
def defaultMarginsAddr : Nat := 0

/-- Heap address of the shared `DEFAULT_PROFILE["title_page"]`. -/
def defaultTitlePageAddr : Nat := 0

/-- The top-level entries of `profiles.DEFAULT_PROFILE`, pointing at the
shared nested dictionaries. -/
def DEFAULT_PROFILE_TOP : ProfileTop :=
  { name := "default"
    display_name := "Стандартный"
    font_name := "Times New Roman"
    font_size := 14
    code_font_name := "Courier New"
    code_font_size := 10
    marginsRef := defaultMarginsAddr
    sections := ["title_page", "purpose", "flowchart", "listing", "test_results", "conclusion"]
    titlePageRef := defaultTitlePageAddr
    line_spacing := 3 / 2
    page_numbers := true }

/-- The heap at interpreter start: the default nested dictionaries hold the
built-in values. -/
def initHeap : ProfHeap :=
  ⟨fun _ => defaultMargins, fun _ => defaultTitlePage⟩

/-- `profiles.load_profile("default")`: `DEFAULT_PROFILE.copy()` — a fresh
top-level dictionary with the same entries; the nested dictionaries are the
shared ones (their addresses are copied, not their contents). -/
def load_profile_default (_h : ProfHeap) : ProfileTop := DEFAULT_PROFILE_TOP

/-- A caller mutating `p["margins"]["top_cm"] = v` through a profile `p`:
an update of the heap cell `p.marginsRef`. -/
def setMarginTopCm (h : ProfHeap) (p : ProfileTop) (v : ℚ) : ProfHeap :=
  { h with
    margins := fun a =>
      if a = p.marginsRef then { h.margins p.marginsRef with top_cm := v }
      else h.margins a }

/-- Reading `p["margins"]["top_cm"]` through a profile `p`. -/
def readMarginTopCm (h : ProfHeap) (p : ProfileTop) : ℚ :=
  (h.margins p.marginsRef).top_cm

/-! ### report_generator.py — section selection of `generate_report` -/

/-- The fixed order in which `generate_report` tests and emits sections
(the six successive `if "..." in sections:` statements). -/
def SECTION_EMIT_ORDER : List String :=
  ["title_page", "purpose", "flowchart", "listing", "test_results", "conclusion"]

/-- Mirror of the six membership-guarded `_add_*` calls of
`generate_report`, recording which section writers run, in program order. -/
def generate_report_sections (sections : List String) : List String :=
  (if "title_page" ∈ sections then ["title_page"] else [])
    ++ (if "purpose" ∈ sections then ["purpose"] else [])
    ++ (if "flowchart" ∈ sections then ["flowchart"] else [])
    ++ (if "listing" ∈ sections then ["listing"] else [])
    ++ (if "test_results" ∈ sections then ["test_results"] else [])
    ++ (if "conclusion" ∈ sections then ["conclusion"] else [])

/-- The `doc.add_heading` texts each section writer emits (the title page
adds no heading). -/
def section_headings (s : String) : List String :=
  if s = "purpose" then ["Цель работы"]
  else if s = "flowchart" then ["Блок-схема алгоритма"]
  else if s = "listing" then ["Листинг программы"]
  else if s = "test_results" then ["Результаты тестирования"]
  else if s = "conclusion" then ["Выводы"]
  else []

/-- The headings of the produced document, in emission order. -/
def report_headings (sections : List String) : List String :=
  (generate_report_sections sections).flatMap section_headings

/-- The claimed behaviour, stated from the spec's words for comparison:
sections in the order given by the profile's `sections` list, unknown names
skipped. -/
def claimed_sections_order (sections : List String) : List String :=
  sections.filter (fun s => s ∈ SECTION_EMIT_ORDER)

/-! ## Supporting lemmas -/

/-- Every node the per-line classifier emits is an interior node kind. -/
theorem classifyStripped_type (language : String) (stripped : List Char) (n : FNode)
    (h : classifyStripped language stripped = some n) :
    n.type = "io" ∨ n.type = "decision" ∨ n.type = "process" := by
  unfold classifyStripped at h
  repeat' split at h
  all_goals
    first
      | exact Option.noConfusion h
      | (injection h with h2; subst h2; simp)

/-- Classifier version on a raw line. -/
theorem classifyLine_type (language : String) (line : List Char) (n : FNode)
    (h : classifyLine language line = some n) :
    n.type = "io" ∨ n.type = "decision" ∨ n.type = "process" :=
  classifyStripped_type language (pyStrip line) n h

/-- The classifier is silent on an empty line. -/
theorem classifyStripped_nil (language : String) :
    classifyStripped language [] = none := by
  unfold classifyStripped
  simp [List.isEmpty]

/-- No interior node produced by the line loop is a `start` or `end` node. -/
theorem filterMap_classify_countP_eq_zero (language : String)
    (lines : List (List Char)) (t : String) (ht : t = "start" ∨ t = "end") :
    (lines.filterMap (classifyLine language)).countP (fun n => n.type == t) = 0 := by
  rw [List.countP_eq_zero]
  intro a ha
  obtain ⟨l, _, hcl⟩ := List.mem_filterMap.mp ha
  rcases classifyLine_type language l a hcl with h | h | h <;>
    rcases ht with ht | ht <;> simp [h, ht]

/-! ## C2 — classifier output invariant -/

/-- C2: for every source text and language tag, `_parse_structure` returns a
sequence that begins with exactly one `start` node, ends with exactly one
`end` node, has length at least 2, contains no other `start`/`end` nodes,
and is exactly `[start, end]` on empty source text. -/
theorem C2_structure_classifier_invariant (code language : String) :
    (_parse_structure code language).head? = some startNode
    ∧ (_parse_structure code language).getLast? = some endNode
    ∧ 2 ≤ (_parse_structure code language).length
    ∧ (_parse_structure code language).countP (fun n => n.type == "start") = 1
    ∧ (_parse_structure code language).countP (fun n => n.type == "end") = 1
    ∧ (code = "" → _parse_structure code language = [startNode, endNode]) := by
  have hform : _parse_structure code language =
      startNode ::
        ((splitLines (pyStrip code.data)).filterMap (classifyLine language) ++ [endNode]) := rfl
  refine ⟨?_, ?_, ?_, ?_, ?_, ?_⟩
  · rw [hform]; rfl
  · rw [hform, ← List.cons_append]
    exact List.getLast?_concat _
  · rw [hform]; simp
  · rw [hform, List.countP_cons, List.countP_append,
      filterMap_classify_countP_eq_zero language _ "start" (Or.inl rfl)]
    simp [startNode, endNode]
  · rw [hform, List.countP_cons, List.countP_append,
      filterMap_classify_countP_eq_zero language _ "end" (Or.inr rfl)]
    simp [startNode, endNode]
  · intro hc
    subst hc
    rfl

/-- Witness for C2 at the empty source text. -/
theorem C2_structure_classifier_invariant_witness :
    _parse_structure "" "python" = [startNode, endNode] :=
  (C2_structure_classifier_invariant "" "python").2.2.2.2.2 rfl

/-! ## C4 — comment-only lines

The claim fails: only line-prefix comments (`#`, `//`) are skipped.  A
Pascal brace-comment line — recognised as a comment by the repository's own
`extract_comments` — contains `:=` and is classified as a `process` node. -/

/-- C4 counterexample: the comment-only Pascal line `{x := 1}` (its body is
what `extract_comments` returns for this source) emits a `process` node
instead of being skipped. -/
theorem C4_comment_skip_counterexample :
    extract_comments "\x7bx := 1\x7d" "pascal" = ["x := 1"]
    ∧ _parse_structure "\x7bx := 1\x7d" "pascal"
        = [startNode, ⟨"process", "\x7bx := 1\x7d"⟩, endNode]
    ∧ _parse_structure "\x7bx := 1\x7d" "pascal" ≠ [startNode, endNode] := by
  refine ⟨by decide, by decide, by decide⟩

/-- C4 amended: a line whose stripped form starts with `#` (Python) or `//`
(C++/Pascal) — the line-comment syntaxes — produces no node; block-comment
lines are not covered by any skip rule. -/
theorem C4_line_comment_skip (language : String) (line : List Char)
    (h : (language = "python" ∧ "#".data.isPrefixOf (pyStrip line))
        ∨ ((language = "cpp" ∨ language = "pascal")
            ∧ "//".data.isPrefixOf (pyStrip line))) :
    classifyLine language line = none := by
  have hs : isSkipLine language (pyStrip line) := by
    rcases h with h | h
    · exact Or.inl h
    · exact Or.inr (Or.inl h)
  unfold classifyLine classifyStripped
  by_cases he : (pyStrip line).isEmpty = true
  · rw [if_pos he]
  · rw [if_neg he, if_pos hs]

/-- Witness for C4 at a concrete Python comment line. -/
theorem C4_line_comment_skip_witness :
    classifyLine "python" "# x = 1".data = none :=
  C4_line_comment_skip "python" "# x = 1".data (Or.inl ⟨rfl, by decide⟩)

/-! ## C7 — raster renderer never fails -/

/-- C7: `generate_flowchart` returns no artifact — never an error — whenever
the node sequence has length ≤ 2, whenever the graphviz package is missing,
and whenever layout fails for any reason; an artifact is returned only on a
successful render of a more-than-trivial diagram. -/
theorem C7_generate_flowchart_no_artifact (env : GraphvizEnv) (code language : String) :
    ((_parse_structure code language).length ≤ 2 →
      generate_flowchart env code language = none)
    ∧ (env.available = false → generate_flowchart env code language = none)
    ∧ (env.render (dot_nodes (_parse_structure code language))
          (dot_edges (_parse_structure code language)) = .execNotFound
        ∨ env.render (dot_nodes (_parse_structure code language))
          (dot_edges (_parse_structure code language)) = .failure →
        generate_flowchart env code language = none)
    ∧ (∀ p, generate_flowchart env code language = some p →
        env.available = true
          ∧ 2 < (_parse_structure code language).length
          ∧ env.render (dot_nodes (_parse_structure code language))
              (dot_edges (_parse_structure code language)) = .success p) := by
  have heq : generate_flowchart env code language =
      (if env.available = false then none
       else if (_parse_structure code language).length ≤ 2 then none
       else
         match env.render (dot_nodes (_parse_structure code language))
             (dot_edges (_parse_structure code language)) with
         | .success p => some p
         | .execNotFound => none
         | .failure => none) := rfl
  rw [heq]
  refine ⟨?_, ?_, ?_, ?_⟩
  · intro hle
    by_cases h1 : env.available = false
    · rw [if_pos h1]
    · rw [if_neg h1, if_pos hle]
  · intro hav
    rw [if_pos hav]
  · intro hfail
    by_cases h1 : env.available = false
    · rw [if_pos h1]
    · rw [if_neg h1]
      by_cases h2 : (_parse_structure code language).length ≤ 2
      · rw [if_pos h2]
      · rw [if_neg h2]
        rcases hfail with hf | hf <;> rw [hf]
  · intro p hp
    by_cases h1 : env.available = false
    · rw [if_pos h1] at hp; exact Option.noConfusion hp
    · rw [if_neg h1] at hp
      by_cases h2 : (_parse_structure code language).length ≤ 2
      · rw [if_pos h2] at hp; exact Option.noConfusion hp
      · rw [if_neg h2] at hp
        refine ⟨by simpa using h1, by omega, ?_⟩
        cases hr : env.render (dot_nodes (_parse_structure code language))
            (dot_edges (_parse_structure code language)) <;> rw [hr] at hp <;> simp_all

/-- Witness for C7: with graphviz unavailable the renderer yields no
artifact. -/
theorem C7_generate_flowchart_no_artifact_witness :
    generate_flowchart ⟨false, fun _ _ => .failure⟩ "x = 1" "python" = none :=
  (C7_generate_flowchart_no_artifact ⟨false, fun _ _ => .failure⟩ "x = 1" "python").2.1 rfl

/-! ## C1 — report section order

The claim fails: `generate_report` runs its six section writers in a fixed
program order, each merely guarded by membership in the profile's
`sections` list, so a profile listing sections in a different order still
produces the fixed order. -/

/-- C1 counterexample: for the profile section list
`["conclusion", "purpose"]` the document's sections come out in the fixed
order `purpose, conclusion` — not in the profile's order as claimed. -/
theorem C1_section_order_counterexample :
    generate_report_sections ["conclusion", "purpose"] = ["purpose", "conclusion"]
    ∧ claimed_sections_order ["conclusion", "purpose"] = ["conclusion", "purpose"]
    ∧ generate_report_sections ["conclusion", "purpose"]
        ≠ claimed_sections_order ["conclusion", "purpose"] := by
  refine ⟨by decide, by decide, by decide⟩

/-- C1 amended: the document's sections are the fixed order `title_page,
purpose, flowchart, listing, test_results, conclusion` restricted to the
names present in the profile's `sections` list; names absent from the list
are skipped, and a profile omitting `"conclusion"` yields a document with
no conclusion heading (`"Выводы"`). -/
theorem C1_section_order_amended (sections : List String) :
    generate_report_sections sections = SECTION_EMIT_ORDER.filter (· ∈ sections)
    ∧ (∀ s ∈ generate_report_sections sections, s ∈ sections)
    ∧ ("conclusion" ∉ sections → "Выводы" ∉ report_headings sections) := by
  refine ⟨?_, ?_, ?_⟩
  · simp only [SECTION_EMIT_ORDER, generate_report_sections, List.filter_cons,
      List.filter_nil, decide_eq_true_eq]
    split_ifs <;> simp
  · intro s hs
    unfold generate_report_sections at hs
    simp only [List.mem_append] at hs
    rcases hs with ((((h | h) | h) | h) | h) | h <;>
      · split_ifs at h <;> simp_all
  · intro hc
    unfold report_headings generate_report_sections
    rw [if_neg hc]
    simp only [List.append_nil]
    split_ifs <;> simp [section_headings]

/-- Witness for C1 at a profile omitting the conclusion section. -/
theorem C1_section_order_amended_witness :
    "Выводы" ∉ report_headings ["title_page", "purpose"] :=
  (C1_section_order_amended ["title_page", "purpose"]).2.2 (by decide)

/-! ## C9 — `load_profile("default")` and the shallow copy

The claim fails: `DEFAULT_PROFILE.copy()` is a shallow copy, so the nested
`margins`/`title_page` dictionaries of the returned profile are the shared
built-in ones; mutating them through the returned value changes what every
later `load_profile` call sees. -/

/-- C9 counterexample: starting from the initial heap, loading the default
profile and setting `margins["top_cm"] = 5` through the returned value makes
a later `load_profile("default")` read `5` instead of the built-in `2`. -/
theorem C9_default_profile_counterexample :
    readMarginTopCm initHeap (load_profile_default initHeap) = 2
    ∧ readMarginTopCm
        (setMarginTopCm initHeap (load_profile_default initHeap) 5)
        (load_profile_default
          (setMarginTopCm initHeap (load_profile_default initHeap) 5)) = 5
    ∧ (5 : ℚ) ≠ 2 := by
  refine ⟨rfl, ?_, by norm_num⟩
  simp [readMarginTopCm, setMarginTopCm, load_profile_default]

/-- C9 amended: `load_profile("default")` returns a fresh top-level mapping
always equal to the built-in constant — so rebinding top-level keys on the
returned value never affects the shared default — but a mutation of the
nested `margins` mapping through the returned value is visible to every
later `load_profile("default")` call (shallow copy). -/
theorem C9_default_profile_amended (h : ProfHeap) (v : ℚ) :
    load_profile_default h = DEFAULT_PROFILE_TOP
    ∧ readMarginTopCm (setMarginTopCm h (load_profile_default h) v)
        (load_profile_default (setMarginTopCm h (load_profile_default h) v)) = v := by
  refine ⟨rfl, ?_⟩
  simp [readMarginTopCm, setMarginTopCm, load_profile_default]

/-! ## C3 — text mode vs raster mode -/

/-- The per-type shapes of the two modes agree through the fixed vocabulary
translation. -/
theorem shape_translation_dot (t : String) :
    shape_translation (dot_shape t) = mermaid_shape t := by
  unfold dot_shape mermaid_shape shape_translation
  split_ifs <;> simp_all

/-- The node declarations of the two modes carry the same ids, labels, and
corresponding shapes. -/
theorem mermaid_dot_nodes_agree (ns : List FNode) : ∀ i : Nat,
    (mermaidNodesFrom i ns).map MermaidNode.id = (dotNodesFrom i ns).map DotNode.id
    ∧ (mermaidNodesFrom i ns).map MermaidNode.label
        = (dotNodesFrom i ns).map DotNode.label
    ∧ (mermaidNodesFrom i ns).map MermaidNode.shape
        = (dotNodesFrom i ns).map (fun d => shape_translation d.shape) := by
  induction ns with
  | nil => intro i; simp [mermaidNodesFrom, dotNodesFrom]
  | cons n rest ih =>
    intro i
    obtain ⟨h1, h2, h3⟩ := ih (i + 1)
    refine ⟨?_, ?_, ?_⟩ <;>
      simp [mermaidNodesFrom, dotNodesFrom, h1, h2, h3, shape_translation_dot]

/-- C3: the text-description mode returns no artifact exactly when the node
sequence has length ≤ 2, otherwise always succeeds as pure string
construction; and its graph is structurally identical to raster mode — the
same node ids and labels, the same shape-per-type vocabulary (through the
fixed translation), and the same linear edge set. -/
theorem C3_mermaid_raster_equivalence (code language : String) :
    (generate_mermaid_code code language = none
      ↔ (_parse_structure code language).length ≤ 2)
    ∧ (2 < (_parse_structure code language).length →
        ∃ s, generate_mermaid_code code language = some s)
    ∧ (mermaid_nodes (_parse_structure code language)).map MermaidNode.id
        = (dot_nodes (_parse_structure code language)).map DotNode.id
    ∧ (mermaid_nodes (_parse_structure code language)).map MermaidNode.label
        = (dot_nodes (_parse_structure code language)).map DotNode.label
    ∧ (mermaid_nodes (_parse_structure code language)).map MermaidNode.shape
        = (dot_nodes (_parse_structure code language)).map
            (fun d => shape_translation d.shape)
    ∧ mermaid_edges (_parse_structure code language)
        = dot_edges (_parse_structure code language) := by
  obtain ⟨h1, h2, h3⟩ := mermaid_dot_nodes_agree (_parse_structure code language) 0
  refine ⟨?_, ?_, h1, h2, h3, rfl⟩
  · by_cases hle : (_parse_structure code language).length ≤ 2
    · simp only [generate_mermaid_code]
      rw [if_pos hle]
      simp [hle]
    · simp only [generate_mermaid_code]
      rw [if_neg hle]
      simp [hle]
  · intro hgt
    simp only [generate_mermaid_code]
    rw [if_neg (by omega)]
    exact ⟨_, rfl⟩

/-- Witness for C3: a two-statement program yields an artifact. -/
theorem C3_mermaid_raster_equivalence_witness :
    ∃ s, generate_mermaid_code "x = input()\nprint(x)" "python" = some s :=
  (C3_mermaid_raster_equivalence "x = input()\nprint(x)" "python").2.1 (by decide)

/-! ## C6 — `run_program` converts platform exceptions into results -/

/-- Two strings with distinct prefixes of distinct lengths stay distinct
after appending a common suffix. -/
theorem append_ne_of_length_ne (a b e : String) (hlen : a.length ≠ b.length) :
    a ++ e ≠ b ++ e := by
  intro h
  have hl := congrArg String.length h
  rw [String.length_append, String.length_append] at hl
  omega

/-- C6: `run_program` never propagates a platform exception — a timeout
yields return code `-1` with the timeout message, a missing binary yields
`-1` with the not-found message, a non-executable binary yields `-1` with
the permission message (the three messages pairwise distinct), and in all
other cases the process's stdout, stderr and return code are returned with
`error = None`. -/
theorem C6_run_program_no_exception (env : ExecEnv)
    (executable_path language input_data : String) (timeout : Option Nat) :
    (env.exec (progCmd env executable_path language) (some input_data) = .timeoutExpired →
      run_program env executable_path language input_data timeout
        = ⟨"", "", -1, some ("Превышено время выполнения ("
            ++ toString (timeout.getD DEFAULT_TIMEOUT) ++ " сек.)")⟩)
    ∧ (env.exec (progCmd env executable_path language) (some input_data) = .fileNotFound →
      run_program env executable_path language input_data timeout
        = ⟨"", "", -1, some ("Не удалось запустить: " ++ executable_path)⟩)
    ∧ (env.exec (progCmd env executable_path language) (some input_data) = .permissionError →
      run_program env executable_path language input_data timeout
        = ⟨"", "", -1, some ("Нет прав на выполнение: " ++ executable_path)⟩)
    ∧ (∀ out err rc,
        env.exec (progCmd env executable_path language) (some input_data)
            = .completed out err rc →
        run_program env executable_path language input_data timeout
          = ⟨out, err, rc, none⟩)
    ∧ ("Не удалось запустить: " ++ executable_path
        ≠ "Нет прав на выполнение: " ++ executable_path)
    ∧ (∀ t : Nat,
        "Превышено время выполнения (" ++ toString t ++ " сек.)"
            ≠ "Не удалось запустить: " ++ executable_path
          ∧ "Превышено время выполнения (" ++ toString t ++ " сек.)"
            ≠ "Нет прав на выполнение: " ++ executable_path) := by
  refine ⟨?_, ?_, ?_, ?_, ?_, ?_⟩
  · intro hx; unfold run_program; rw [hx]
  · intro hx; unfold run_program; rw [hx]
  · intro hx; unfold run_program; rw [hx]
  · intro out err rc hx; unfold run_program; rw [hx]
  · exact append_ne_of_length_ne _ _ _ (by decide)
  · intro t
    constructor
    · intro h
      have hd := congrArg String.data h
      simp only [String.data_append] at hd
      have h0 := congrArg (fun l => l.head?) hd
      simp at h0
    · intro h
      have hd := congrArg String.data h
      simp only [String.data_append] at hd
      have h0 := congrArg (fun l => l.head?) hd
      simp at h0

/-- Witness for C6: a timing-out run returns `-1` and the timeout message. -/
theorem C6_run_program_no_exception_witness :
    run_program ⟨fun _ => none, fun _ _ => .timeoutExpired, fun _ => false,
        fun _ => none, "/tmp"⟩ "/bin/prog" "cpp" "" none
      = ⟨"", "", -1, some "Превышено время выполнения (30 сек.)"⟩ :=
  (C6_run_program_no_exception ⟨fun _ => none, fun _ _ => .timeoutExpired,
      fun _ => false, fun _ => none, "/tmp"⟩ "/bin/prog" "cpp" "" none).1 rfl

/-! ## C5 — `run_tests` report shape -/

/-- The test loop yields one entry per input. -/
theorem runTestsLoop_length (env : ExecEnv) (exe language : String) :
    ∀ (ts : List String) (j : Nat),
      (runTestsLoop env exe language j ts).length = ts.length := by
  intro ts
  induction ts with
  | nil => intro j; rfl
  | cons t rest ih => intro j; simp [runTestsLoop, ih (j + 1)]

/-- The `i`-th entry of the test loop is determined by the `i`-th input
alone: it is that input's independent `run_program` invocation, tagged with
its 1-based position and its input string. -/
theorem runTestsLoop_getElem? (env : ExecEnv) (exe language : String) :
    ∀ (ts : List String) (j i : Nat),
      (runTestsLoop env exe language j ts)[i]?
        = (ts[i]?).map
            (fun t => mkTestEntry (run_program env exe language t none) (j + i + 1) t) := by
  intro ts
  induction ts with
  | nil => intro j i; simp [runTestsLoop]
  | cons t rest ih =>
    intro j i
    cases i with
    | zero => simp [runTestsLoop]
    | succ k =>
      have harith : j + 1 + k + 1 = j + (k + 1) + 1 := by omega
      simp [runTestsLoop, ih (j + 1) k, harith]

/-- Every entry of the test loop is an independent `run_program` invocation
on some input. -/
theorem runTestsLoop_mem (env : ExecEnv) (exe language : String) :
    ∀ (ts : List String) (j : Nat) (e : TestRunResult),
      e ∈ runTestsLoop env exe language j ts →
      ∃ t i, e = mkTestEntry (run_program env exe language t none) i t := by
  intro ts
  induction ts with
  | nil => intro j e he; simp [runTestsLoop] at he
  | cons t rest ih =>
    intro j e he
    simp only [runTestsLoop, List.mem_cons] at he
    rcases he with he | he
    · exact ⟨t, j + 1, he⟩
    · exact ih (j + 1) e he

/-- Unfolding equation for `run_tests` with the temporary source path
written out. -/
theorem run_tests_unfold (env : ExecEnv) (source_path language : String)
    (test_cases : List String) :
    run_tests env source_path language test_cases =
      (match env.readFile source_path with
       | none => none
       | some _ =>
         match compile_code env
             (env.tmpdir ++ "/program" ++ String.mk (splitextExt source_path.data))
             language with
         | none => none
         | some (executable, compile_error) =>
           if isTruthyStr compile_error then some ⟨false, compile_error, []⟩
           else
             match test_cases, executable with
             | [], _ => some ⟨true, none, []⟩
             | _ :: _, none => none
             | ts, some exe => some ⟨true, none, runTestsLoop env exe language 0 ts⟩) := rfl

/-- C5: whenever `run_tests` returns a report, `compiled = false` implies an
empty result list; and `compiled = true` implies exactly one entry per
supplied input, in input order, the `i`-th entry being the `i`-th input's
own independent run tagged with `test_number = i + 1` and that input —
so no test's outcome influences any other entry. -/
theorem C5_run_tests_report (env : ExecEnv) (source_path language : String)
    (test_cases : List String) (r : CompileRunReport)
    (h : run_tests env source_path language test_cases = some r) :
    (r.compiled = false → r.results = [])
    ∧ (r.compiled = true →
        r.results.length = test_cases.length
        ∧ ∃ exe, ∀ i : Nat,
            r.results[i]?
              = (test_cases[i]?).map
                  (fun t => mkTestEntry (run_program env exe language t none) (i + 1) t)) := by
  rw [run_tests_unfold] at h
  cases hrf : env.readFile source_path with
  | none => rw [hrf] at h; exact Option.noConfusion h
  | some c0 =>
    rw [hrf] at h
    cases hc : compile_code env
        (env.tmpdir ++ "/program" ++ String.mk (splitextExt source_path.data))
        language with
    | none => rw [hc] at h; exact Option.noConfusion h
    | some pr =>
      obtain ⟨executable, compile_error⟩ := pr
      rw [hc] at h
      simp only at h
      by_cases ht : isTruthyStr compile_error = true
      · rw [if_pos ht] at h
        injection h with h2
        subst h2
        exact ⟨fun _ => rfl, fun hcomp => Bool.noConfusion hcomp⟩
      · rw [if_neg ht] at h
        cases test_cases with
        | nil =>
          simp only at h
          injection h with h2
          subst h2
          refine ⟨fun hcomp => Bool.noConfusion hcomp, fun _ => ⟨rfl, "", fun i => ?_⟩⟩
          simp [runTestsLoop]
        | cons t0 rest =>
          cases executable with
          | none => exact Option.noConfusion h
          | some exe =>
            simp only at h
            injection h with h2
            subst h2
            refine ⟨fun hcomp => Bool.noConfusion hcomp,
              fun _ => ⟨runTestsLoop_length env exe language (t0 :: rest) 0, exe, fun i => ?_⟩⟩
            simpa using runTestsLoop_getElem? env exe language (t0 :: rest) 0 i

/-- Witness for C5 on a concrete environment and a one-test run. -/
theorem C5_run_tests_report_witness :
    ((⟨true, none,
        [⟨"ok", "", 0, none, 1, "5"⟩]⟩ : CompileRunReport).compiled = false →
      (⟨true, none, [⟨"ok", "", 0, none, 1, "5"⟩]⟩ : CompileRunReport).results = [])
    ∧ ((⟨true, none, [⟨"ok", "", 0, none, 1, "5"⟩]⟩ : CompileRunReport).compiled = true →
        (⟨true, none, [⟨"ok", "", 0, none, 1, "5"⟩]⟩ : CompileRunReport).results.length
            = (["5"] : List String).length
        ∧ ∃ exe, ∀ i : Nat,
            (⟨true, none, [⟨"ok", "", 0, none, 1, "5"⟩]⟩ : CompileRunReport).results[i]?
              = ((["5"] : List String)[i]?).map
                  (fun t => mkTestEntry
                    (run_program
                      ⟨fun _ => none, fun _ _ => .completed "ok" "" 0,
                        fun _ => false, fun _ => some "x = 1", "/tmp"⟩
                      exe "python" t none) (i + 1) t)) :=
  C5_run_tests_report
    ⟨fun _ => none, fun _ _ => .completed "ok" "" 0,
      fun _ => false, fun _ => some "x = 1", "/tmp"⟩
    "/src/a.py" "python" ["5"] ⟨true, none, [⟨"ok", "", 0, none, 1, "5"⟩]⟩ rfl

/-! ## C10 — the interpreted language skips the compile stage -/

/-- C10: for `language = "python"`, `compile_code` succeeds for every
environment without probing for an interpreter; hence `run_tests` reports
`compiled = true` with `compile_error = None` even on a platform where
every process launch raises file-not-found — interpreter absence surfaces
only as per-test entries with return code `-1` and an error message. -/
theorem C10_python_compile_stage_skipped (env : ExecEnv) (src : String)
    (tests : List String) :
    (∀ p, compile_code env p "python" = some (some p, none))
    ∧ ((∀ cmd inp, env.exec cmd inp = .fileNotFound) →
        ∀ c0, env.readFile src = some c0 →
        ∃ r, run_tests env src "python" tests = some r
          ∧ r.compiled = true
          ∧ r.compile_error = none
          ∧ r.results.length = tests.length
          ∧ ∀ e ∈ r.results,
              e.returncode = -1
                ∧ e.error = some ("Не удалось запустить: "
                    ++ (env.tmpdir ++ "/program" ++ String.mk (splitextExt src.data)))) := by
  constructor
  · intro p; rfl
  · intro hexec c0 hrf
    set tmp := env.tmpdir ++ "/program" ++ String.mk (splitextExt src.data) with htmp
    have heq : run_tests env src "python" tests =
        (match env.readFile src with
         | none => none
         | some _ =>
           match tests, (some tmp : Option String) with
           | [], _ => some ⟨true, none, []⟩
           | _ :: _, none => none
           | ts, some exe => some ⟨true, none, runTestsLoop env exe "python" 0 ts⟩) := rfl
    rw [hrf] at heq
    have hrun : ∀ t, run_program env tmp "python" t none
        = ⟨"", "", -1, some ("Не удалось запустить: " ++ tmp)⟩ := by
      intro t
      unfold run_program
      rw [hexec _ _]
    cases tests with
    | nil =>
      refine ⟨⟨true, none, []⟩, by simpa using heq, rfl, rfl, rfl, ?_⟩
      intro e he
      simp at he
    | cons t0 rest =>
      refine ⟨⟨true, none, runTestsLoop env tmp "python" 0 (t0 :: rest)⟩,
        by simpa using heq, rfl, rfl,
        runTestsLoop_length env tmp "python" (t0 :: rest) 0, ?_⟩
      intro e he
      obtain ⟨t, i, hei⟩ := runTestsLoop_mem env tmp "python" (t0 :: rest) 0 e he
      subst hei
      rw [hrun t]
      exact ⟨rfl, rfl⟩

/-- Witness for C10: with no interpreter anywhere, the report still claims
a successful compilation and each test carries the launch-failure result. -/
theorem C10_python_compile_stage_skipped_witness :
    ∃ r, run_tests
        ⟨fun _ => none, fun _ _ => .fileNotFound, fun _ => false,
          fun _ => some "", "/t"⟩ "/a/b.py" "python" ["1", "2"] = some r
      ∧ r.compiled = true
      ∧ r.compile_error = none
      ∧ r.results.length = (["1", "2"] : List String).length
      ∧ ∀ e ∈ r.results,
          e.returncode = -1
            ∧ e.error = some ("Не удалось запустить: "
                ++ ("/t" ++ "/program" ++ String.mk (splitextExt "/a/b.py".data))) :=
  (C10_python_compile_stage_skipped
      ⟨fun _ => none, fun _ _ => .fileNotFound, fun _ => false,
        fun _ => some "", "/t"⟩ "/a/b.py" ["1", "2"]).2
    (fun _ _ => rfl) "" rfl

/-! ## C8 — purpose heuristic -/

/-- `find?` returns the head of the filtered list. -/
theorem find?_eq_head_filter {α : Type} (p : α → Bool) :
    ∀ l : List α, l.find? p = (l.filter p).head? := by
  intro l
  induction l with
  | nil => rfl
  | cons a rest ih =>
    cases hp : p a with
    | true => rw [List.find?_cons_of_pos _ hp, List.filter_cons_of_pos hp]; rfl
    | false => rw [List.find?_cons_of_neg _ (by simp [hp]), List.filter_cons_of_neg (by simp [hp]), ih]

/-- C8: `extract_purpose` returns the first extracted comment containing a
purpose keyword (case-insensitive substring) verbatim; with no such comment
the first extracted comment verbatim; and with no comments at all the
string synthesised from the file's base name with the extension stripped
(`"Выполнение программы '<basename>'"`, the spec's
`"Running program '<basename>'"`). -/
theorem C8_extract_purpose_heuristic (code language filepath : String) :
    extract_purpose code language filepath =
      match ((extract_comments code language).filter hasPurposeKeyword).head? with
      | some c => c
      | none =>
        match (extract_comments code language).head? with
        | some c => c
        | none => "Выполнение программы \x27" ++ basenameNoExt filepath ++ "\x27" := by
  simp only [extract_purpose]
  rw [find?_eq_head_filter]
  cases hfil : ((extract_comments code language).filter hasPurposeKeyword).head? with
  | some c => rfl
  | none =>
    cases hc : extract_comments code language with
    | nil => rfl
    | cons c rest => rfl

end CodelabAssistant
